import Mathlib

/-!
Shallow embedding of the café backend's order subsystem: the order router
(POST /, GET /:orderNumber, PUT /:orderNumber/status) and the Order model
with its pre-save hook.  Client-visible JavaScript numbers are modelled as
rationals (`Rat`), times as milliseconds (`Nat`), and the Mongo collection
as a `List Order`.  Falsiness of a JS string is `= ""`, of a number `= 0`,
of a possibly-absent value `Option.none`.
-/

namespace Cafe

/-- A catalog entry as read by the order router: `MenuItem` documents expose
`_id`, `name`, `price`, `image`, `isAvailable`. -/
structure MenuItem where
  id : String
  name : String
  price : Rat
  image : String
  isAvailable : Bool
deriving DecidableEq, Repr

/-- The MenuItem collection. -/
abbrev Catalog := List MenuItem

/-- MenuItem.findById: first document whose `_id` matches. -/
def findById (cat : Catalog) (i : String) : Option MenuItem :=
  cat.find? (fun m => m.id == i)

/-- mongoose.Types.ObjectId.isValid on a string: a 24-character hex string
or any 12-character string. -/
def isHexChar (c : Char) : Bool :=
  c.isDigit || ('a' ≤ c && c ≤ 'f') || ('A' ≤ c && c ≤ 'F')

/-- Syntactic validity of a catalog identifier. -/
def isValidObjectId (s : String) : Bool :=
  (s.length == 24 && s.data.all isHexChar) || s.length == 12

/-- One element of the request body's `items` array.  `name` and `price`
are client-supplied and untrusted. -/
structure ClientItem where
  menuItemId : Option String
  quantity : Option Rat
  name : Option String
  price : Option Rat
deriving DecidableEq, Repr

/-- The request body's `customer` object (absent sub-fields read as ""). -/
structure CustomerIn where
  name : String
  email : String
  phone : String
deriving DecidableEq, Repr

/-- The request body's `deliveryAddress` object; `city` and `landmark` are
optional in the request. -/
structure AddressIn where
  street : String
  area : String
  city : Option String
  pincode : String
  landmark : Option String
deriving DecidableEq, Repr

/-- A POST /api/orders request body. -/
structure OrderReq where
  customer : Option CustomerIn
  deliveryAddress : Option AddressIn
  items : Option (List ClientItem)
  specialInstructions : Option String
deriving DecidableEq, Repr

/-- The classified 400 responses of the order-creation route, with the data
interpolated into each message. -/
inductive OrderErr where
  | missingFields
  | missingCustomerFields
  | missingAddressFields
  | invalidItemId (offending : Option String)
  | itemNotFound (clientName : Option String)
  | itemUnavailable (name : String)
  | invalidQuantity (name : String)
deriving DecidableEq, Repr

/-- The persisted customer sub-document. -/
structure Customer where
  name : String
  email : String
  phone : String
deriving DecidableEq, Repr

/-- The persisted delivery-address sub-document. -/
structure Address where
  street : String
  area : String
  city : String
  pincode : String
  landmark : String
deriving DecidableEq, Repr

/-- One persisted line item: the snapshot pushed onto `validatedItems`
(menuItem reference plus name/price/image copied from the catalog). -/
structure OrderItem where
  menuItem : String
  name : String
  price : Rat
  quantity : Rat
  image : String
deriving DecidableEq, Repr

/-- Body of the `for (const item of items)` loop (router lines 44-87,
validation part): ObjectId format, catalog lookup, availability, quantity
truthy and not `< 1`. -/
def checkItem (cat : Catalog) (x : ClientItem) : Except OrderErr (MenuItem × Rat) :=
  match x.menuItemId with
  | none => .error (.invalidItemId none)
  | some i =>
    if i == "" then .error (.invalidItemId (some i))
    else if isValidObjectId i then
      match findById cat i with
      | none => .error (.itemNotFound x.name)
      | some m =>
        if m.isAvailable then
          match x.quantity with
          | none => .error (.invalidQuantity m.name)
          | some q =>
            if q == 0 then .error (.invalidQuantity m.name)
            else if q < 1 then .error (.invalidQuantity m.name)
            else .ok (m, q)
        else .error (.itemUnavailable m.name)
    else .error (.invalidItemId (some i))

/-- The whole item loop: on first failure abort with that item's error,
otherwise accumulate `subtotal` and the snapshot list in input order. -/
def validateItems (cat : Catalog) : List ClientItem → Except OrderErr (Rat × List OrderItem)
  | [] => .ok (0, [])
  | x :: rest =>
    match checkItem cat x with
    | .error e => .error e
    | .ok (m, q) =>
      match validateItems cat rest with
      | .error e => .error e
      | .ok (s, vs) => .ok (m.price * q + s, ⟨m.id, m.name, m.price, q, m.image⟩ :: vs)

/-- The order data assembled by the route before `newOrder.save()`. -/
structure BuiltOrder where
  customer : Customer
  deliveryAddress : Address
  items : List OrderItem
  subtotal : Rat
  deliveryFee : Rat
  total : Rat
  specialInstructions : String
deriving DecidableEq, Repr

/-- Whitespace for JS `String.prototype.trim` (ASCII part). -/
def isWS (c : Char) : Bool :=
  c == ' ' || c == '\t' || c == '\n' || c == '\r'

/-- JS `String.prototype.trim`: strip leading and trailing whitespace. -/
def jsTrim (s : String) : String :=
  ⟨((s.data.dropWhile isWS).reverse.dropWhile isWS).reverse⟩

/-- JS `String.prototype.toLowerCase` (ASCII part). -/
def jsToLower (s : String) : String :=
  ⟨s.data.map Char.toLower⟩

/-- JS `opt?.trim() || dflt` for an optional request string. -/
def trimOr (s : Option String) (dflt : String) : String :=
  match s with
  | none => dflt
  | some s => if jsTrim s == "" then dflt else jsTrim s

/-- POST /api/orders up to (but not including) the database write: the
validation cascade of router lines 14-75, then the totals of lines 77-90
and the document assembly of lines 93-111. -/
def createOrder (cat : Catalog) (req : OrderReq) : Except OrderErr BuiltOrder :=
  match req.customer, req.deliveryAddress, req.items with
  | some c, some a, some l =>
    if l.length == 0 then .error .missingFields
    else if c.name == "" || c.email == "" || c.phone == "" then .error .missingCustomerFields
    else if a.street == "" || a.area == "" || a.pincode == "" then .error .missingAddressFields
    else
      match validateItems cat l with
      | .error e => .error e
      | .ok (subtotal, vitems) =>
        let deliveryFee : Rat := if subtotal ≥ 300 then 0 else 30
        .ok { customer := ⟨jsTrim c.name, jsToLower (jsTrim c.email), jsTrim c.phone⟩
              deliveryAddress := ⟨jsTrim a.street, jsTrim a.area, trimOr a.city "Ahmedabad",
                                  jsTrim a.pincode, trimOr a.landmark ""⟩
              items := vitems
              subtotal := subtotal
              deliveryFee := deliveryFee
              total := subtotal + deliveryFee
              specialInstructions := trimOr req.specialInstructions "" }
  | _, _, _ => .error .missingFields

/-- Decimal digit list of a positive number, most significant first;
`fuel` only bounds the recursion depth. -/
def decDigitsAux : Nat → Nat → List Char
  | 0, _ => []
  | _ + 1, 0 => []
  | fuel + 1, n + 1 => decDigitsAux fuel ((n + 1) / 10) ++ [Nat.digitChar ((n + 1) % 10)]

/-- JS `Number.prototype.toString()` for a natural number: decimal digits,
no leading zeros, `"0"` for zero. -/
def decRepr (n : Nat) : List Char :=
  if n = 0 then ['0'] else decDigitsAux n n

/-- JS `String.prototype.slice(-k)`: the last `k` characters (the whole
string when it is shorter than `k`). -/
def lastN (k : Nat) (l : List Char) : List Char := l.drop (l.length - k)

/-- JS `String.prototype.padStart(k, '0')`. -/
def padTo (k : Nat) (l : List Char) : List Char := List.replicate (k - l.length) '0' ++ l

/-- Order number generated in the pre-save hook:
CA + last 6 digits of `Date.now()` + `(count + 1)` zero-padded to width 3,
where `count` is the current number of Order documents. -/
def genOrderNumber (now count : Nat) : String :=
  ⟨['C', 'A'] ++ lastN 6 (decRepr now) ++ padTo 3 (decRepr (count + 1))⟩

/-- A persisted Order document. -/
structure Order where
  orderNumber : String
  customer : Customer
  deliveryAddress : Address
  items : List OrderItem
  subtotal : Rat
  deliveryFee : Rat
  total : Rat
  paymentMethod : String
  status : String
  specialInstructions : String
  estimatedDeliveryTime : Option Nat
  actualDeliveryTime : Option Nat
  createdAt : Nat
  updatedAt : Nat
deriving DecidableEq, Repr

/-- Saving a fresh document, `newOrder.save()`: schema defaults (`paymentMethod
= "cod"`, `status = "pending"`, `createdAt = now`) plus the pre-save hook
(orderNumber from the collection count, estimated delivery 45 minutes out,
`updatedAt = now`). -/
def saveOrder (db : List Order) (now : Nat) (b : BuiltOrder) : Order :=
  { orderNumber := genOrderNumber now db.length
    customer := b.customer
    deliveryAddress := b.deliveryAddress
    items := b.items
    subtotal := b.subtotal
    deliveryFee := b.deliveryFee
    total := b.total
    paymentMethod := "cod"
    status := "pending"
    specialInstructions := b.specialInstructions
    estimatedDeliveryTime := some (now + 45 * 60 * 1000)
    actualDeliveryTime := none
    createdAt := now
    updatedAt := now }

/-- The 201 payload of POST /api/orders. -/
structure CreateResponse where
  orderNumber : String
  total : Rat
  estimatedDeliveryTime : Option Nat
  status : String
deriving DecidableEq, Repr

/-- The whole POST /api/orders handler as a state transformer on the Order
collection: on any validation error the collection is returned untouched
with the 400 payload, otherwise the saved order is appended. -/
def handleCreateOrder (cat : Catalog) (db : List Order) (now : Nat) (req : OrderReq) :
    List Order × Except OrderErr CreateResponse :=
  match createOrder cat req with
  | .error e => (db, .error e)
  | .ok b =>
    let o := saveOrder db now b
    (db ++ [o], .ok ⟨o.orderNumber, o.total, o.estimatedDeliveryTime, o.status⟩)

/-- The `validStatuses` array of the status route. -/
def validStatuses : List String :=
  ["pending", "confirmed", "preparing", "out-for-delivery", "delivered", "cancelled"]

/-- The update document of PUT /:orderNumber/status: `status`, plus
`actualDeliveryTime = now` when the target status is "delivered".
`findOneAndUpdate` fires no save middleware, so `updatedAt` is untouched. -/
def applyStatus (o : Order) (s : String) (now : Nat) : Order :=
  { o with status := s
           actualDeliveryTime := if s == "delivered" then some now else o.actualDeliveryTime }

/-- Model of `findOneAndUpdate` with `new: true`: rewrite the first
matching document in place and also return it. -/
def updateFirst (n : String) (f : Order → Order) : List Order → Option (List Order × Order)
  | [] => none
  | o :: rest =>
    if o.orderNumber == n then some (f o :: rest, f o)
    else
      match updateFirst n f rest with
      | none => none
      | some (db2, u) => some (o :: db2, u)

/-- Failure modes of the status route: 400 invalid status, 404 unknown
order number. -/
inductive StatusErr where
  | invalidStatus
  | notFound
deriving DecidableEq, Repr

/-- The whole PUT /api/orders/:orderNumber/status handler as a state
transformer on the Order collection. -/
def handleUpdateStatus (db : List Order) (n s : String) (now : Nat) :
    List Order × Except StatusErr Order :=
  if validStatuses.contains s then
    match updateFirst n (fun o => applyStatus o s now) db with
    | none => (db, .error .notFound)
    | some (db2, o) => (db2, .ok o)
  else (db, .error .invalidStatus)

/-- JS `a || b || c` where `a` is a snapshot string, `b` an optionally
populated catalog string and `c` the default. -/
def jsOrStr (a : String) (b : Option String) (c : String) : String :=
  if a == "" then
    match b with
    | some s => if s == "" then c else s
    | none => c
  else a

/-- JS `a || b || c` on numbers (0 is falsy). -/
def jsOrRat (a : Rat) (b : Option Rat) (c : Rat) : Rat :=
  if a == 0 then
    match b with
    | some x => if x == 0 then c else x
    | none => c
  else a

/-- One item of the customer-facing projection. -/
structure ProjItem where
  name : String
  price : Rat
  quantity : Rat
  image : String
deriving DecidableEq, Repr

/-- Item projection of GET /:orderNumber lines 190-195: snapshot
field, else populated catalog field, else default. -/
def projectItem (cat : Catalog) (it : OrderItem) : ProjItem :=
  { name := jsOrStr it.name ((findById cat it.menuItem).map MenuItem.name) "Unnamed Item"
    price := jsOrRat it.price ((findById cat it.menuItem).map MenuItem.price) 0
    quantity := it.quantity
    image := jsOrStr it.image ((findById cat it.menuItem).map MenuItem.image) "" }

/-- The customer-facing response shape of GET /:orderNumber lines 185-199;
the order's `total` is returned under the key `totalAmount`. -/
structure Projection where
  status : String
  estimatedDeliveryTime : Option Nat
  deliveryAddress : Address
  paymentMethod : String
  items : List ProjItem
  subtotal : Rat
  deliveryFee : Rat
  totalAmount : Rat
deriving DecidableEq, Repr

/-- The data object returned for one order. -/
def projectOrder (cat : Catalog) (o : Order) : Projection :=
  { status := o.status
    estimatedDeliveryTime := o.estimatedDeliveryTime
    deliveryAddress := o.deliveryAddress
    paymentMethod := o.paymentMethod
    items := o.items.map (projectItem cat)
    subtotal := o.subtotal
    deliveryFee := o.deliveryFee
    totalAmount := o.total }

/-- GET /api/orders/:orderNumber: `Order.findOne({orderNumber})` with
population against the current catalog; `none` is the 404 branch. -/
def lookupOrder (db : List Order) (cat : Catalog) (n : String) : Option Projection :=
  (db.find? (fun o => o.orderNumber == n)).map (projectOrder cat)

/-- Success projection of an `Except`. -/
def exceptOk {ε α : Type} : Except ε α → Option α
  | .ok a => some a
  | .error _ => none

/-- The part of a request item the success path actually reads: id and
quantity (client-supplied name and price are dropped). -/
def itemKey (x : ClientItem) : Option String × Option Rat :=
  (x.menuItemId, x.quantity)

/-- Decimal value of a digit list, most significant first; decoder used to
show distinct counts yield distinct order-number suffixes. -/
def valDigits (l : List Char) : Nat :=
  l.foldl (fun a c => 10 * a + (c.toNat - 48)) 0

/-- A syntactically valid catalog identifier used by the concrete test
fixtures. -/
def exId : String := "aaaaaaaaaaaaaaaaaaaaaaaa"

/-- A one-item catalog whose entry has price 80 and is available. -/
def exCat : Catalog := [⟨exId, "CAPPUCCINO", 80, "img", true⟩]

/-- A well-formed request customer. -/
def exCustomerIn : CustomerIn := ⟨"Asha", "Asha@Example.com", "9999999999"⟩

/-- A well-formed request address (city and landmark omitted). -/
def exAddressIn : AddressIn := ⟨"12 MG Road", "Navrangpura", none, "380009", none⟩

/-- A request line item for the fixture catalog entry with a given
quantity. -/
def exItem (q : Rat) : ClientItem := ⟨some exId, some q, none, none⟩

/-- A well-formed order request with a single line item of quantity `q`. -/
def exReq (q : Rat) : OrderReq :=
  ⟨some exCustomerIn, some exAddressIn, some [exItem q], none⟩

/-- The persisted customer of the fixture request after normalization. -/
def exCustomer : Customer := ⟨"Asha", "asha@example.com", "9999999999"⟩

/-- The persisted address of the fixture request after normalization. -/
def exAddress : Address := ⟨"12 MG Road", "Navrangpura", "Ahmedabad", "380009", ""⟩

/-- The order built from `exReq 2`: subtotal 160, fee 30, total 190. -/
def exBuilt2 : BuiltOrder :=
  ⟨exCustomer, exAddress, [⟨exId, "CAPPUCCINO", 80, 2, "img"⟩], 160, 30, 190, ""⟩

/-- The order built from `exReq 4`: subtotal 320, fee 0, total 320. -/
def exBuilt4 : BuiltOrder :=
  ⟨exCustomer, exAddress, [⟨exId, "CAPPUCCINO", 80, 4, "img"⟩], 320, 0, 320, ""⟩

/-- The order built from `exReq (3/2)`: the fractional quantity is
accepted and priced, subtotal 120, fee 30, total 150. -/
def exBuiltHalf : BuiltOrder :=
  ⟨exCustomer, exAddress, [⟨exId, "CAPPUCCINO", 80, 3 / 2, "img"⟩], 120, 30, 150, ""⟩

/-- A request that is well-formed except for an empty item list. -/
def exReqEmpty : OrderReq := ⟨some exCustomerIn, some exAddressIn, some [], none⟩

/-- A fixture creation time (a realistic 13-digit millisecond clock). -/
def exNow : Nat := 1700000000000

/-- A second fixture creation time, 7 milliseconds later. -/
def exNow2 : Nat := 1700000000007

/-- The saved fixture order: first document of an empty collection. -/
def exO1 : Order := saveOrder [] exNow exBuilt2

/-- A second saved fixture order, created when `exO1` is already stored. -/
def exO2 : Order := saveOrder [exO1] exNow2 exBuilt2

/-- The fixture order after a transition to "delivered" at a later time. -/
def exO1d : Order := applyStatus exO1 "delivered" 1800000000000

/-- The fixture order after a transition to "confirmed" at a later time. -/
def exO1c : Order := applyStatus exO1 "confirmed" 1800000000000

/-! Evaluation lemmas for the fixtures. -/

theorem exId_valid : isValidObjectId exId = true := by decide

theorem findById_ex : findById exCat exId = some ⟨exId, "CAPPUCCINO", 80, "img", true⟩ := rfl

theorem checkItem_ex (q : Rat) (h0 : (q == 0) = false) (h1 : ¬ q < 1) :
    checkItem exCat (exItem q) = .ok (⟨exId, "CAPPUCCINO", 80, "img", true⟩, q) := by
  simp [checkItem, exItem, exId_valid, findById_ex, h0, h1]
  decide

theorem validateItems_ex (q : Rat) (h0 : (q == 0) = false) (h1 : ¬ q < 1) :
    validateItems exCat [exItem q] =
      .ok (80 * q + 0, [⟨exId, "CAPPUCCINO", 80, q, "img"⟩]) := by
  simp [validateItems, checkItem_ex q h0 h1]

theorem createOrder_ex (q : Rat) (h0 : (q == 0) = false) (h1 : ¬ q < 1) :
    createOrder exCat (exReq q) = .ok
      ⟨exCustomer, exAddress, [⟨exId, "CAPPUCCINO", 80, q, "img"⟩], 80 * q + 0,
        if 80 * q + 0 ≥ 300 then (0 : Rat) else 30,
        (80 * q + 0) + if 80 * q + 0 ≥ 300 then (0 : Rat) else 30, ""⟩ := by
  simp [createOrder, exReq, validateItems_ex q h0 h1, exCustomerIn, exAddressIn,
    exCustomer, exAddress, trimOr]
  decide

theorem createOrder_ex2 : createOrder exCat (exReq 2) = .ok exBuilt2 := by
  rw [createOrder_ex 2 (by norm_num) (by norm_num)]
  norm_num [exBuilt2, exCustomer, exAddress]

theorem createOrder_ex4 : createOrder exCat (exReq 4) = .ok exBuilt4 := by
  rw [createOrder_ex 4 (by norm_num) (by norm_num)]
  norm_num [exBuilt4, exCustomer, exAddress]

theorem createOrder_exHalf : createOrder exCat (exReq (3 / 2)) = .ok exBuiltHalf := by
  rw [createOrder_ex (3 / 2) (by norm_num) (by norm_num)]
  norm_num [exBuiltHalf, exCustomer, exAddress]

/-! Decimal-digit lemmas: the sequence component of an order number can be
decoded back to the collection count, so distinct counts give distinct
order numbers. -/

theorem digitChar_toNat (d : Nat) (h : d < 10) : (Nat.digitChar d).toNat = 48 + d := by
  interval_cases d <;> decide

theorem valDigits_decDigitsAux (fuel : Nat) :
    ∀ n, n ≤ fuel → valDigits (decDigitsAux fuel n) = n := by
  induction fuel with
  | zero =>
    intro n hn
    interval_cases n
    simp [decDigitsAux, valDigits]
  | succ fuel ih =>
    intro n hn
    match n with
    | 0 => simp [decDigitsAux, valDigits]
    | k + 1 =>
      have hdiv : (k + 1) / 10 ≤ fuel := by omega
      have hval : valDigits (decDigitsAux fuel ((k + 1) / 10)) = (k + 1) / 10 := ih _ hdiv
      simp only [decDigitsAux, valDigits, List.foldl_append] at hval ⊢
      rw [hval]
      simp only [List.foldl_cons, List.foldl_nil]
      rw [digitChar_toNat _ (Nat.mod_lt _ (by norm_num))]
      omega

theorem valDigits_decRepr (n : Nat) : valDigits (decRepr n) = n := by
  by_cases h : n = 0
  · subst h; decide
  · rw [decRepr, if_neg h]
    exact valDigits_decDigitsAux n n le_rfl

theorem foldl_val_replicate_zero (m : Nat) :
    List.foldl (fun a c => 10 * a + (c.toNat - 48)) 0 (List.replicate m '0') = 0 := by
  induction m with
  | zero => rfl
  | succ m ih => simpa [List.replicate_succ] using ih

theorem valDigits_padTo (k : Nat) (l : List Char) : valDigits (padTo k l) = valDigits l := by
  simp only [padTo, valDigits, List.foldl_append, foldl_val_replicate_zero]

theorem lastN_length (k : Nat) (l : List Char) (h : k ≤ l.length) :
    (lastN k l).length = k := by
  simp only [lastN, List.length_drop]
  omega

theorem genOrderNumber_ne_of_count_ne (t1 t2 c1 c2 : Nat)
    (h1 : 6 ≤ (decRepr t1).length) (h2 : 6 ≤ (decRepr t2).length) (hne : c1 ≠ c2) :
    genOrderNumber t1 c1 ≠ genOrderNumber t2 c2 := by
  intro h
  have hd : ['C', 'A'] ++ lastN 6 (decRepr t1) ++ padTo 3 (decRepr (c1 + 1)) =
      ['C', 'A'] ++ lastN 6 (decRepr t2) ++ padTo 3 (decRepr (c2 + 1)) :=
    congrArg String.data h
  have hlen : (lastN 6 (decRepr t1)).length = (lastN 6 (decRepr t2)).length := by
    rw [lastN_length 6 _ h1, lastN_length 6 _ h2]
  simp only [List.cons_append, List.nil_append, List.cons.injEq, true_and] at hd
  have hB := (List.append_inj hd hlen).2
  have hv := congrArg valDigits hB
  rw [valDigits_padTo, valDigits_padTo, valDigits_decRepr, valDigits_decRepr] at hv
  omega

/-! Characterization of `updateFirst` (the findOneAndUpdate model). -/

theorem updateFirst_eq_none (n : String) (f : Order → Order) :
    ∀ db : List Order, (∀ o ∈ db, o.orderNumber ≠ n) → updateFirst n f db = none := by
  intro db
  induction db with
  | nil => intro; rfl
  | cons o rest ih =>
    intro h
    have ho : o.orderNumber ≠ n := h o (by simp)
    rw [updateFirst, if_neg (by simpa using ho), ih fun y hy => h y (by simp [hy])]

theorem updateFirst_none_all (n : String) (f : Order → Order) :
    ∀ db : List Order, updateFirst n f db = none → ∀ o ∈ db, o.orderNumber ≠ n := by
  intro db
  induction db with
  | nil => simp
  | cons o rest ih =>
    intro h
    by_cases ho : o.orderNumber = n
    · rw [updateFirst, if_pos (by simpa using ho)] at h
      exact absurd h (by simp)
    · rw [updateFirst, if_neg (by simpa using ho)] at h
      intro y hy
      rcases List.mem_cons.mp hy with hyo | hyr
      · rw [hyo]; exact ho
      · cases hrest : updateFirst n f rest with
        | none => exact ih hrest y hyr
        | some p => rw [hrest] at h; exact absurd h (by simp)

theorem updateFirst_some_spec (n : String) (f : Order → Order) :
    ∀ (db : List Order) (p : List Order × Order), updateFirst n f db = some p →
      ∃ pre o post, db = pre ++ o :: post ∧ o.orderNumber = n ∧
        (∀ y ∈ pre, y.orderNumber ≠ n) ∧ p.1 = pre ++ f o :: post ∧ p.2 = f o := by
  intro db
  induction db with
  | nil => intro p h; exact absurd h (by simp [updateFirst])
  | cons o rest ih =>
    intro p h
    by_cases ho : o.orderNumber = n
    · rw [updateFirst, if_pos (by simpa using ho)] at h
      have hp := Option.some.inj h
      refine ⟨[], o, rest, by simp, ho, by simp, by rw [← hp]; rfl, by rw [← hp]⟩
    · rw [updateFirst, if_neg (by simpa using ho)] at h
      cases hrest : updateFirst n f rest with
      | none => rw [hrest] at h; exact absurd h (by simp)
      | some q =>
        rw [hrest] at h
        obtain ⟨pre, o2, post, hsplit, ho2, hpre, hq1, hq2⟩ := ih q hrest
        refine ⟨o :: pre, o2, post, by simp [hsplit], ho2, ?_, ?_, ?_⟩
        · intro y hy
          rcases List.mem_cons.mp hy with hyo | hyp
          · rw [hyo]; exact ho
          · exact hpre y hyp
        · have hp := Option.some.inj h
          rw [← hp]
          simp [hq1]
        · have hp := Option.some.inj h
          rw [← hp]
          simp [hq2]

/-! Characterization of the per-item validation step. -/

theorem checkItem_ok_spec (cat : Catalog) (x : ClientItem) (m : MenuItem) (q : Rat)
    (h : checkItem cat x = .ok (m, q)) :
    ∃ i, x.menuItemId = some i ∧ (i == "") = false ∧ isValidObjectId i = true ∧
      findById cat i = some m ∧ m.isAvailable = true ∧ x.quantity = some q ∧
      (q == 0) = false ∧ ¬ q < 1 := by
  cases hmid : x.menuItemId with
  | none => simp [checkItem, hmid] at h
  | some i =>
    by_cases hi0 : i = ""
    · simp [checkItem, hmid, hi0] at h
    · by_cases hv : isValidObjectId i = true
      · cases hf : findById cat i with
        | none => simp [checkItem, hmid, hi0, hv, hf] at h
        | some m2 =>
          by_cases ha : m2.isAvailable = true
          · cases hq : x.quantity with
            | none => simp [checkItem, hmid, hi0, hv, hf, ha, hq] at h
            | some q2 =>
              by_cases h0 : q2 = 0
              · simp [checkItem, hmid, hi0, hv, hf, ha, hq, h0] at h
              · by_cases hlt : q2 < 1
                · simp [checkItem, hmid, hi0, hv, hf, ha, hq, h0, hlt] at h
                · simp [checkItem, hmid, hi0, hv, hf, ha, hq, h0, hlt] at h
                  obtain ⟨hm, hqq⟩ := h
                  subst hm
                  subst hqq
                  exact ⟨i, rfl, by simp [hi0], hv, hf, ha, rfl, by simp [h0], hlt⟩
          · simp [checkItem, hmid, hi0, hv, hf, ha] at h
      · simp [checkItem, hmid, hi0, hv] at h

theorem checkItem_ok_intro (cat : Catalog) (x : ClientItem) (i : String) (m : MenuItem)
    (q : Rat) (hmid : x.menuItemId = some i) (hne : (i == "") = false)
    (hv : isValidObjectId i = true) (hf : findById cat i = some m)
    (ha : m.isAvailable = true) (hqq : x.quantity = some q) (h0 : (q == 0) = false)
    (hlt : ¬ q < 1) : checkItem cat x = .ok (m, q) := by
  simp only [checkItem, hmid, hf, hqq]
  rw [if_neg (by simp [hne]), if_pos hv, if_pos ha, if_neg (by simp [h0]), if_neg hlt]

theorem checkItem_ok_key (cat : Catalog) (x y : ClientItem) (hk : itemKey x = itemKey y)
    (p : MenuItem × Rat) (h : checkItem cat x = .ok p) : checkItem cat y = .ok p := by
  simp only [itemKey, Prod.mk.injEq] at hk
  obtain ⟨hid, hq⟩ := hk
  obtain ⟨m, q⟩ := p
  obtain ⟨i, hmid, hne, hv, hf, ha, hqq, h0, hlt⟩ := checkItem_ok_spec cat x m q h
  exact checkItem_ok_intro cat y i m q (hid ▸ hmid) hne hv hf ha (hq ▸ hqq) h0 hlt

/-! Characterization of the whole item loop. -/

theorem validateItems_ok_all (cat : Catalog) :
    ∀ (l : List ClientItem) (r : Rat × List OrderItem), validateItems cat l = .ok r →
      ∀ x ∈ l, ∃ p, checkItem cat x = .ok p := by
  intro l
  induction l with
  | nil => simp
  | cons x rest ih =>
    intro r h y hy
    simp only [validateItems] at h
    cases hc : checkItem cat x with
    | error e => rw [hc] at h; exact absurd h (by simp)
    | ok p =>
      obtain ⟨m, q⟩ := p
      rw [hc] at h
      cases hr : validateItems cat rest with
      | error e => rw [hr] at h; exact absurd h (by simp)
      | ok r2 =>
        obtain ⟨s2, vs2⟩ := r2
        rcases List.mem_cons.mp hy with hyx | hyr
        · exact ⟨(m, q), hyx ▸ hc⟩
        · exact ih (s2, vs2) hr y hyr

theorem validateItems_ok_spec (cat : Catalog) :
    ∀ (l : List ClientItem) (s : Rat) (vs : List OrderItem),
      validateItems cat l = .ok (s, vs) →
      vs.length = l.length ∧
      s = (vs.map (fun it => it.price * it.quantity)).sum ∧
      ∀ i (hi : i < l.length) (hi2 : i < vs.length),
        ∃ m q, checkItem cat (l.get ⟨i, hi⟩) = .ok (m, q) ∧
          vs.get ⟨i, hi2⟩ = ⟨m.id, m.name, m.price, q, m.image⟩ := by
  intro l
  induction l with
  | nil =>
    intro s vs h
    simp only [validateItems, Except.ok.injEq, Prod.mk.injEq] at h
    obtain ⟨hs, hv⟩ := h
    subst hs
    subst hv
    refine ⟨rfl, by simp, ?_⟩
    intro i hi
    exact absurd hi (by simp)
  | cons x rest ih =>
    intro s vs h
    simp only [validateItems] at h
    cases hc : checkItem cat x with
    | error e => rw [hc] at h; exact absurd h (by simp)
    | ok p =>
      obtain ⟨m, q⟩ := p
      rw [hc] at h
      cases hr : validateItems cat rest with
      | error e => rw [hr] at h; exact absurd h (by simp)
      | ok r2 =>
        obtain ⟨s2, vs2⟩ := r2
        rw [hr] at h
        simp only [Except.ok.injEq, Prod.mk.injEq] at h
        obtain ⟨hs, hv⟩ := h
        obtain ⟨hlen, hsum, hidx⟩ := ih s2 vs2 hr
        subst hs
        subst hv
        refine ⟨by simp [hlen], by simp [hsum], ?_⟩
        intro i hi hi2
        match i with
        | 0 => exact ⟨m, q, hc, rfl⟩
        | i + 1 =>
          simpa using hidx i (by simpa using hi) (by simpa using hi2)

theorem validateItems_ok_key (cat : Catalog) :
    ∀ (l l2 : List ClientItem), l.map itemKey = l2.map itemKey →
      ∀ r, validateItems cat l = .ok r → validateItems cat l2 = .ok r := by
  intro l
  induction l with
  | nil =>
    intro l2 hm r h
    have : l2 = [] := by
      cases l2 with
      | nil => rfl
      | cons y ys => simp at hm
    rw [this]
    exact h
  | cons x rest ih =>
    intro l2 hm r h
    cases l2 with
    | nil => simp at hm
    | cons y rest2 =>
      simp only [List.map_cons, List.cons.injEq] at hm
      obtain ⟨hk, hrest⟩ := hm
      simp only [validateItems] at h ⊢
      cases hc : checkItem cat x with
      | error e => rw [hc] at h; exact absurd h (by simp)
      | ok p =>
        obtain ⟨m, q⟩ := p
        rw [hc] at h
        rw [checkItem_ok_key cat x y hk (m, q) hc]
        cases hr : validateItems cat rest with
        | error e => rw [hr] at h; exact absurd h (by simp)
        | ok r2 =>
          obtain ⟨s2, vs2⟩ := r2
          rw [hr] at h
          rw [ih rest2 hrest (s2, vs2) hr]
          exact h

theorem validateItems_error_iff (cat : Catalog) :
    ∀ (l : List ClientItem) (e : OrderErr),
      validateItems cat l = .error e ↔
        ∃ pre x post, l = pre ++ x :: post ∧
          (∀ y ∈ pre, ∃ p, checkItem cat y = .ok p) ∧ checkItem cat x = .error e := by
  intro l
  induction l with
  | nil =>
    intro e
    constructor
    · intro h; simp [validateItems] at h
    · rintro ⟨pre, x, post, habs, -, -⟩
      exact absurd habs (by simp)
  | cons x rest ih =>
    intro e
    constructor
    · intro h
      simp only [validateItems] at h
      cases hc : checkItem cat x with
      | error e2 =>
        rw [hc] at h
        simp only [Except.error.injEq] at h
        exact ⟨[], x, rest, rfl, by simp, by rw [hc, h]⟩
      | ok p =>
        obtain ⟨m, q⟩ := p
        rw [hc] at h
        cases hr : validateItems cat rest with
        | error e2 =>
          rw [hr] at h
          simp only [Except.error.injEq] at h
          subst h
          obtain ⟨pre, y, post, hsplit, hpre, hy⟩ := (ih e2).mp hr
          refine ⟨x :: pre, y, post, by simp [hsplit], ?_, hy⟩
          intro z hz
          rcases List.mem_cons.mp hz with hzx | hzp
          · exact ⟨(m, q), hzx ▸ hc⟩
          · exact hpre z hzp
        | ok r2 =>
          obtain ⟨s2, vs2⟩ := r2
          rw [hr] at h
          exact absurd h (by simp)
    · rintro ⟨pre, y, post, hsplit, hpre, hy⟩
      cases pre with
      | nil =>
        simp only [List.nil_append, List.cons.injEq] at hsplit
        obtain ⟨hxy, hrp⟩ := hsplit
        subst hxy
        simp only [validateItems]
        rw [hy]
      | cons z pre2 =>
        simp only [List.cons_append, List.cons.injEq] at hsplit
        obtain ⟨hxz, hrp⟩ := hsplit
        subst hxz
        obtain ⟨p, hp⟩ := hpre x (by simp)
        obtain ⟨m, q⟩ := p
        simp only [validateItems]
        rw [hp]
        have herr : validateItems cat rest = .error e :=
          (ih e).mpr ⟨pre2, y, post, hrp, fun w hw => hpre w (by simp [hw]), hy⟩
        rw [herr]

/-! Shape of the errors the item loop can produce. -/

theorem checkItem_error_not_header (cat : Catalog) (x : ClientItem) (e : OrderErr)
    (h : checkItem cat x = .error e) :
    e ≠ .missingFields ∧ e ≠ .missingCustomerFields ∧ e ≠ .missingAddressFields := by
  cases hmid : x.menuItemId with
  | none => simp [checkItem, hmid] at h; subst h; simp
  | some i =>
    by_cases hi0 : i = ""
    · simp [checkItem, hmid, hi0] at h; subst h; simp
    · by_cases hv : isValidObjectId i = true
      · cases hf : findById cat i with
        | none => simp [checkItem, hmid, hi0, hv, hf] at h; subst h; simp
        | some m2 =>
          by_cases ha : m2.isAvailable = true
          · cases hq : x.quantity with
            | none => simp [checkItem, hmid, hi0, hv, hf, ha, hq] at h; subst h; simp
            | some q2 =>
              by_cases h0 : q2 = 0
              · simp [checkItem, hmid, hi0, hv, hf, ha, hq, h0] at h; subst h; simp
              · by_cases hlt : q2 < 1
                · simp [checkItem, hmid, hi0, hv, hf, ha, hq, h0, hlt] at h
                  subst h; simp
                · simp [checkItem, hmid, hi0, hv, hf, ha, hq, h0, hlt] at h
          · simp [checkItem, hmid, hi0, hv, hf, ha] at h; subst h; simp
      · simp [checkItem, hmid, hi0, hv] at h; subst h; simp

theorem checkItem_invalidItemId_payload (cat : Catalog) (x : ClientItem) (o : Option String)
    (h : checkItem cat x = .error (.invalidItemId o)) : o = x.menuItemId := by
  cases hmid : x.menuItemId with
  | none => simp [checkItem, hmid] at h; simp [h]
  | some i =>
    by_cases hi0 : i = ""
    · simp [checkItem, hmid, hi0] at h; simp [h, hi0]
    · by_cases hv : isValidObjectId i = true
      · cases hf : findById cat i with
        | none => simp [checkItem, hmid, hi0, hv, hf] at h
        | some m2 =>
          by_cases ha : m2.isAvailable = true
          · cases hq : x.quantity with
            | none => simp [checkItem, hmid, hi0, hv, hf, ha, hq] at h
            | some q2 =>
              by_cases h0 : q2 = 0
              · simp [checkItem, hmid, hi0, hv, hf, ha, hq, h0] at h
              · by_cases hlt : q2 < 1
                · simp [checkItem, hmid, hi0, hv, hf, ha, hq, h0, hlt] at h
                · simp [checkItem, hmid, hi0, hv, hf, ha, hq, h0, hlt] at h
          · simp [checkItem, hmid, hi0, hv, hf, ha] at h
      · simp [checkItem, hmid, hi0, hv] at h; simp [h]

theorem checkItem_invalidQuantity_iff (cat : Catalog) (x : ClientItem) (i : String)
    (m : MenuItem) (hmid : x.menuItemId = some i) (hi0 : i ≠ "")
    (hv : isValidObjectId i = true) (hf : findById cat i = some m)
    (ha : m.isAvailable = true) :
    checkItem cat x = .error (.invalidQuantity m.name) ↔
      x.quantity = none ∨ ∃ q, x.quantity = some q ∧ q < 1 := by
  cases hq : x.quantity with
  | none => simp [checkItem, hmid, hi0, hv, hf, ha, hq]
  | some q2 =>
    by_cases h0 : q2 = 0
    · simp [checkItem, hmid, hi0, hv, hf, ha, hq, h0]
    · by_cases hlt : q2 < 1
      · simp [checkItem, hmid, hi0, hv, hf, ha, hq, h0, hlt]
      · simp [checkItem, hmid, hi0, hv, hf, ha, hq, h0, hlt]

/-! Characterization of the order builder. -/

theorem createOrder_ok_spec (cat : Catalog) (req : OrderReq) (b : BuiltOrder)
    (h : createOrder cat req = .ok b) :
    ∃ c a l, req.customer = some c ∧ req.deliveryAddress = some a ∧ req.items = some l ∧
      l ≠ [] ∧ (c.name == "" || c.email == "" || c.phone == "") = false ∧
      (a.street == "" || a.area == "" || a.pincode == "") = false ∧
      validateItems cat l = .ok (b.subtotal, b.items) ∧
      b.deliveryFee = (if b.subtotal ≥ 300 then (0 : Rat) else 30) ∧
      b.total = b.subtotal + b.deliveryFee := by
  cases hc : req.customer with
  | none => simp [createOrder, hc] at h
  | some c =>
  cases ha : req.deliveryAddress with
  | none => simp [createOrder, hc, ha] at h
  | some a =>
  cases hl : req.items with
  | none => simp [createOrder, hc, ha, hl] at h
  | some l =>
  by_cases hlen : l.length = 0
  · simp [createOrder, hc, ha, hl, hlen] at h
  · by_cases hcf : (c.name == "" || c.email == "" || c.phone == "") = true
    · simp [createOrder, hc, ha, hl, hlen, hcf] at h
    · by_cases haf : (a.street == "" || a.area == "" || a.pincode == "") = true
      · simp [createOrder, hc, ha, hl, hlen, hcf, haf] at h
      · cases hvi : validateItems cat l with
        | error e => simp [createOrder, hc, ha, hl, hlen, hcf, haf, hvi] at h
        | ok r =>
          obtain ⟨s, vs⟩ := r
          simp only [createOrder, hc, ha, hl, hlen, hcf, haf, hvi,
            Bool.not_eq_true] at h
          rw [if_neg (by simpa using hlen)] at h
          have hb := Except.ok.inj h
          subst hb
          exact ⟨c, a, l, rfl, rfl, rfl, fun he => hlen (by simp [he]),
            by simpa using hcf, by simpa using haf, hvi, rfl, rfl⟩

theorem createOrder_missingFields_iff (cat : Catalog) (req : OrderReq) :
    createOrder cat req = .error .missingFields ↔
      req.customer = none ∨ req.deliveryAddress = none ∨ req.items = none ∨
        req.items = some [] := by
  cases hc : req.customer with
  | none => simp [createOrder, hc]
  | some c =>
  cases ha : req.deliveryAddress with
  | none => simp [createOrder, hc, ha]
  | some a =>
  cases hl : req.items with
  | none => simp [createOrder, hc, ha, hl]
  | some l =>
  by_cases hlen : l.length = 0
  · have hnil : l = [] := List.length_eq_zero.mp hlen
    simp [createOrder, hc, ha, hl, hnil]
  · have hnil : ¬ l = [] := fun he => hlen (by simp [he])
    by_cases hcf : (c.name == "" || c.email == "" || c.phone == "") = true
    · simp [createOrder, hc, ha, hl, hlen, hcf, hnil]
    · by_cases haf : (a.street == "" || a.area == "" || a.pincode == "") = true
      · simp [createOrder, hc, ha, hl, hlen, hcf, haf, hnil]
      · cases hvi : validateItems cat l with
        | error e =>
          simp only [createOrder, hc, ha, hl, hvi]
          rw [if_neg (by simpa using hlen), if_neg (by simpa using hcf),
            if_neg (by simpa using haf)]
          constructor
          · intro he
            obtain ⟨-, y, -, -, -, hy⟩ := ((validateItems_error_iff cat l e).mp hvi)
            have he2 : e = .missingFields := by simpa using he
            exact absurd he2 (checkItem_error_not_header cat y e hy).1
          · intro hor
            rcases hor with h1 | h1 | h1 | h1
            · exact absurd h1 (by simp)
            · exact absurd h1 (by simp)
            · exact absurd h1 (by simp)
            · exact absurd (Option.some.inj h1) hnil
        | ok r =>
          obtain ⟨s, vs⟩ := r
          simp only [createOrder, hc, ha, hl, hvi]
          rw [if_neg (by simpa using hlen), if_neg (by simpa using hcf),
            if_neg (by simpa using haf)]
          constructor
          · intro he; exact absurd he (by simp)
          · intro hor
            rcases hor with h1 | h1 | h1 | h1
            · exact absurd h1 (by simp)
            · exact absurd h1 (by simp)
            · exact absurd h1 (by simp)
            · exact absurd (Option.some.inj h1) hnil

theorem createOrder_missingCustomer_iff (cat : Catalog) (req : OrderReq) :
    createOrder cat req = .error .missingCustomerFields ↔
      ∃ c a l, req.customer = some c ∧ req.deliveryAddress = some a ∧ req.items = some l ∧
        l ≠ [] ∧ (c.name = "" ∨ c.email = "" ∨ c.phone = "") := by
  cases hc : req.customer with
  | none => simp [createOrder, hc]
  | some c =>
  cases ha : req.deliveryAddress with
  | none => simp [createOrder, hc, ha]
  | some a =>
  cases hl : req.items with
  | none => simp [createOrder, hc, ha, hl]
  | some l =>
  by_cases hlen : l.length = 0
  · have hnil : l = [] := List.length_eq_zero.mp hlen
    simp [createOrder, hc, ha, hl, hnil]
  · have hnil : ¬ l = [] := fun he => hlen (by simp [he])
    by_cases hcf : (c.name == "" || c.email == "" || c.phone == "") = true
    · have hcf2 : c.name = "" ∨ c.email = "" ∨ c.phone = "" := by
        simpa [or_assoc] using hcf
      simp only [createOrder, hc, ha, hl]
      rw [if_neg (by simpa using hlen), if_pos hcf]
      simp [hnil, hcf2]
    · have hcf2 : ¬ (c.name = "" ∨ c.email = "" ∨ c.phone = "") := by
        simpa [not_or, and_assoc] using hcf
      have hno : ∀ e, validateItems cat l = .error e → e ≠ .missingCustomerFields := by
        intro e hvi
        obtain ⟨-, y, -, -, -, hy⟩ := ((validateItems_error_iff cat l e).mp hvi)
        exact (checkItem_error_not_header cat y e hy).2.1
      by_cases haf : (a.street == "" || a.area == "" || a.pincode == "") = true
      · simp only [createOrder, hc, ha, hl]
        rw [if_neg (by simpa using hlen), if_neg (by simpa using hcf), if_pos haf]
        simp [hcf2]
      · cases hvi : validateItems cat l with
        | error e =>
          simp only [createOrder, hc, ha, hl, hvi]
          rw [if_neg (by simpa using hlen), if_neg (by simpa using hcf),
            if_neg (by simpa using haf)]
          constructor
          · intro he
            exact absurd (by simpa using he : e = .missingCustomerFields) (hno e hvi)
          · rintro ⟨c2, a2, l2, hc2, -, -, -, hfields⟩
            rw [← Option.some.inj hc2] at hfields
            exact absurd hfields hcf2
        | ok r =>
          obtain ⟨s, vs⟩ := r
          simp only [createOrder, hc, ha, hl, hvi]
          rw [if_neg (by simpa using hlen), if_neg (by simpa using hcf),
            if_neg (by simpa using haf)]
          constructor
          · intro he; exact absurd he (by simp)
          · rintro ⟨c2, a2, l2, hc2, -, -, -, hfields⟩
            rw [← Option.some.inj hc2] at hfields
            exact absurd hfields hcf2

theorem createOrder_missingAddress_iff (cat : Catalog) (req : OrderReq) :
    createOrder cat req = .error .missingAddressFields ↔
      ∃ c a l, req.customer = some c ∧ req.deliveryAddress = some a ∧ req.items = some l ∧
        l ≠ [] ∧ ¬ (c.name = "" ∨ c.email = "" ∨ c.phone = "") ∧
        (a.street = "" ∨ a.area = "" ∨ a.pincode = "") := by
  cases hc : req.customer with
  | none => simp [createOrder, hc]
  | some c =>
  cases ha : req.deliveryAddress with
  | none => simp [createOrder, hc, ha]
  | some a =>
  cases hl : req.items with
  | none => simp [createOrder, hc, ha, hl]
  | some l =>
  by_cases hlen : l.length = 0
  · have hnil : l = [] := List.length_eq_zero.mp hlen
    simp [createOrder, hc, ha, hl, hnil]
  · have hnil : ¬ l = [] := fun he => hlen (by simp [he])
    by_cases hcf : (c.name == "" || c.email == "" || c.phone == "") = true
    · have hcf2 : c.name = "" ∨ c.email = "" ∨ c.phone = "" := by
        simpa [or_assoc] using hcf
      simp only [createOrder, hc, ha, hl]
      rw [if_neg (by simpa using hlen), if_pos hcf]
      simp only [Except.error.injEq, Option.some.injEq]
      constructor
      · intro he; exact absurd he (by simp)
      · rintro ⟨c2, a2, l2, hc2, -, -, -, hnc, -⟩
        rw [← hc2] at hnc
        exact absurd hcf2 hnc
    · have hcf2 : ¬ (c.name = "" ∨ c.email = "" ∨ c.phone = "") := by
        simpa [not_or, and_assoc] using hcf
      by_cases haf : (a.street == "" || a.area == "" || a.pincode == "") = true
      · have haf2 : a.street = "" ∨ a.area = "" ∨ a.pincode = "" := by
          simpa [or_assoc] using haf
        simp only [createOrder, hc, ha, hl]
        rw [if_neg (by simpa using hlen), if_neg hcf, if_pos haf]
        simp only [Option.some.injEq]
        constructor
        · intro; exact ⟨c, a, l, rfl, rfl, rfl, hnil, hcf2, haf2⟩
        · intro; trivial
      · have haf2 : ¬ (a.street = "" ∨ a.area = "" ∨ a.pincode = "") := by
          simpa [not_or, and_assoc] using haf
        have hno : ∀ e, validateItems cat l = .error e → e ≠ .missingAddressFields := by
          intro e hvi
          obtain ⟨-, y, -, -, -, hy⟩ := ((validateItems_error_iff cat l e).mp hvi)
          exact (checkItem_error_not_header cat y e hy).2.2
        cases hvi : validateItems cat l with
        | error e =>
          simp only [createOrder, hc, ha, hl, hvi]
          rw [if_neg (by simpa using hlen), if_neg hcf, if_neg haf]
          constructor
          · intro he
            exact absurd (by simpa using he : e = .missingAddressFields) (hno e hvi)
          · rintro ⟨c2, a2, l2, -, ha2, -, -, -, hfields⟩
            rw [← Option.some.inj ha2] at hfields
            exact absurd hfields haf2
        | ok r =>
          obtain ⟨s, vs⟩ := r
          simp only [createOrder, hc, ha, hl, hvi]
          rw [if_neg (by simpa using hlen), if_neg hcf, if_neg haf]
          constructor
          · intro he; exact absurd he (by simp)
          · rintro ⟨c2, a2, l2, -, ha2, -, -, -, hfields⟩
            rw [← Option.some.inj ha2] at hfields
            exact absurd hfields haf2

theorem createOrder_itemError_iff (cat : Catalog) (req : OrderReq) (c : CustomerIn)
    (a : AddressIn) (l : List ClientItem) (hc : req.customer = some c)
    (ha : req.deliveryAddress = some a) (hl : req.items = some l) (hnil : l ≠ [])
    (hcf : ¬ (c.name = "" ∨ c.email = "" ∨ c.phone = ""))
    (haf : ¬ (a.street = "" ∨ a.area = "" ∨ a.pincode = "")) (e : OrderErr) :
    createOrder cat req = .error e ↔ validateItems cat l = .error e := by
  have hlen : ¬ (l.length = 0) := fun h2 => hnil (List.length_eq_zero.mp h2)
  have hcfb : ¬ ((c.name == "" || c.email == "" || c.phone == "") = true) := by
    simpa [or_assoc] using hcf
  have hafb : ¬ ((a.street == "" || a.area == "" || a.pincode == "") = true) := by
    simpa [or_assoc] using haf
  simp only [createOrder, hc, ha, hl]
  rw [if_neg (by simpa using hlen), if_neg hcfb, if_neg hafb]
  cases hvi : validateItems cat l with
  | error e2 => simp
  | ok r =>
    obtain ⟨s, vs⟩ := r
    constructor
    · intro he; exact absurd he (by simp)
    · intro he; exact absurd he (by simp)

theorem createOrder_ok_key (cat : Catalog) (req req2 : OrderReq) (b : BuiltOrder)
    (h : createOrder cat req = .ok b)
    (hc : req2.customer = req.customer) (ha : req2.deliveryAddress = req.deliveryAddress)
    (hs : req2.specialInstructions = req.specialInstructions)
    (hi : Option.map (List.map itemKey) req2.items = Option.map (List.map itemKey) req.items) :
    createOrder cat req2 = .ok b := by
  obtain ⟨c, a, l, hc0, ha0, hl0, hnil, hcfb, hafb, hvi, -, -⟩ :=
    createOrder_ok_spec cat req b h
  rw [hl0] at hi
  cases hl2 : req2.items with
  | none => rw [hl2] at hi; simp at hi
  | some l2 =>
    rw [hl2] at hi
    simp only [Option.map_some', Option.some.injEq] at hi
    have hlen2 : l2.length = l.length := by
      have hcl := congrArg List.length hi
      simpa using hcl
    have hlz : ¬ (l2.length = 0) := by
      intro hz
      exact hnil (List.length_eq_zero.mp (hlen2 ▸ hz))
    have hvi2 : validateItems cat l2 = .ok (b.subtotal, b.items) :=
      validateItems_ok_key cat l l2 hi.symm _ hvi
    simp only [createOrder, hc, hc0, ha, ha0, hl2, hs, hvi2]
    rw [if_neg (by simpa using hlz), if_neg (by simp [hcfb]), if_neg (by simp [hafb])]
    have hlzl : ¬ (l.length = 0) := fun hz => hnil (List.length_eq_zero.mp hz)
    simp only [createOrder, hc0, ha0, hl0, hvi] at h
    rw [if_neg (by simpa using hlzl), if_neg (by simp [hcfb]),
      if_neg (by simp [hafb])] at h
    exact h

/-! The claims. -/

/-- C1: for every successfully created order the delivery fee is 0 when the
subtotal is at least 300 and 30 otherwise, and the total is exactly the
subtotal plus the fee; the fixture item of catalog price 80 gives subtotal
160, fee 30, total 190 at quantity 2 and subtotal 320, fee 0, total 320 at
quantity 4. -/
theorem C1_fee_and_total :
    (∀ cat db now req db2 resp,
        handleCreateOrder cat db now req = (db2, .ok resp) →
        ∃ o, db2 = db ++ [o] ∧
          o.deliveryFee = (if o.subtotal ≥ 300 then (0 : Rat) else 30) ∧
          o.total = o.subtotal + o.deliveryFee ∧ resp.total = o.total) ∧
    (exceptOk (createOrder exCat (exReq 2))).map
        (fun b => (b.subtotal, b.deliveryFee, b.total)) = some (160, 30, 190) ∧
    (exceptOk (createOrder exCat (exReq 4))).map
        (fun b => (b.subtotal, b.deliveryFee, b.total)) = some (320, 0, 320) := by
  refine ⟨?_, ?_, ?_⟩
  · intro cat db now req db2 resp h
    cases hco : createOrder cat req with
    | error e => simp [handleCreateOrder, hco] at h
    | ok b =>
      obtain ⟨-, -, -, -, -, -, -, -, -, -, hfee, htot⟩ := createOrder_ok_spec cat req b hco
      simp only [handleCreateOrder, hco, Prod.mk.injEq] at h
      obtain ⟨hdb, hresp⟩ := h
      refine ⟨saveOrder db now b, hdb.symm, hfee, htot, ?_⟩
      have := Except.ok.inj hresp
      rw [← this]
  · simp [createOrder_ex2, exceptOk, exBuilt2]
  · simp [createOrder_ex4, exceptOk, exBuilt4]

/-- Witness for C1 at the quantity-2 fixture in an empty collection. -/
theorem C1_witness :
    ∃ o, [exO1] = ([] : List Order) ++ [o] ∧
      o.deliveryFee = (if o.subtotal ≥ 300 then (0 : Rat) else 30) ∧
      o.total = o.subtotal + o.deliveryFee ∧
      (⟨exO1.orderNumber, exO1.total, exO1.estimatedDeliveryTime, exO1.status⟩ :
          CreateResponse).total = o.total :=
  C1_fee_and_total.1 exCat [] exNow (exReq 2) [exO1]
    ⟨exO1.orderNumber, exO1.total, exO1.estimatedDeliveryTime, exO1.status⟩
    (by simp only [handleCreateOrder, createOrder_ex2]; rfl)

/-- C2: every persisted line item of a successfully created order snapshots
name, price and image from the catalog entry its id resolves to, the
quantity is the requested one, and the subtotal is the sum over the items
of catalog price times requested quantity; client-supplied item names and
prices have no effect on the built order. -/
theorem C2_snapshot_and_subtotal :
    (∀ cat req b l, createOrder cat req = .ok b → req.items = some l →
        b.subtotal = (b.items.map (fun it => it.price * it.quantity)).sum ∧
        b.items.length = l.length) ∧
    (∀ cat req b l i (hi : i < l.length) (hi2 : i < b.items.length),
        createOrder cat req = .ok b → req.items = some l →
        ∃ i0 m q, (l.get ⟨i, hi⟩).menuItemId = some i0 ∧ findById cat i0 = some m ∧
          m.isAvailable = true ∧ (l.get ⟨i, hi⟩).quantity = some q ∧
          b.items.get ⟨i, hi2⟩ = ⟨m.id, m.name, m.price, q, m.image⟩) ∧
    (∀ cat req req2 b, createOrder cat req = .ok b →
        req2.customer = req.customer → req2.deliveryAddress = req.deliveryAddress →
        req2.specialInstructions = req.specialInstructions →
        Option.map (List.map itemKey) req2.items = Option.map (List.map itemKey) req.items →
        createOrder cat req2 = .ok b) := by
  refine ⟨?_, ?_, ?_⟩
  · intro cat req b l h hl
    obtain ⟨c, a, l2, -, -, hl2, -, -, -, hvi, -, -⟩ := createOrder_ok_spec cat req b h
    rw [hl] at hl2
    rw [← Option.some.inj hl2] at hvi
    obtain ⟨hlen, hsum, -⟩ := validateItems_ok_spec cat l b.subtotal b.items hvi
    exact ⟨hsum, hlen⟩
  · intro cat req b l i hi hi2 h hl
    obtain ⟨c, a, l2, -, -, hl2, -, -, -, hvi, -, -⟩ := createOrder_ok_spec cat req b h
    rw [hl] at hl2
    rw [← Option.some.inj hl2] at hvi
    obtain ⟨-, -, hidx⟩ := validateItems_ok_spec cat l b.subtotal b.items hvi
    obtain ⟨m, q, hchk, hit⟩ := hidx i hi hi2
    obtain ⟨i0, hmid, -, -, hf, ha2, hq, -, -⟩ := checkItem_ok_spec cat _ m q hchk
    exact ⟨i0, m, q, hmid, hf, ha2, hq, hit⟩
  · intro cat req req2 b h h1 h2 h3 h4
    exact createOrder_ok_key cat req req2 b h h1 h2 h3 h4

/-- Witness for C2 at the quantity-2 fixture, first line item. -/
theorem C2_witness :
    ∃ i0 m q, (([exItem 2].get ⟨0, Nat.zero_lt_one⟩)).menuItemId = some i0 ∧
      findById exCat i0 = some m ∧ m.isAvailable = true ∧
      (([exItem 2].get ⟨0, Nat.zero_lt_one⟩)).quantity = some q ∧
      exBuilt2.items.get ⟨0, Nat.zero_lt_one⟩ = ⟨m.id, m.name, m.price, q, m.image⟩ :=
  C2_snapshot_and_subtotal.2.1 exCat (exReq 2) exBuilt2 [exItem 2] 0 Nat.zero_lt_one
    Nat.zero_lt_one createOrder_ex2 rfl

/-- C3: order creation is all-or-nothing.  Any validation error leaves the
collection untouched and is reported as the 400 payload; an empty item
list always fails with the missing-fields error; a request containing any
failing item never persists an order, wherever that item sits. -/
theorem C3_all_or_nothing :
    (∀ cat db now req e, createOrder cat req = .error e →
        handleCreateOrder cat db now req = (db, .error e)) ∧
    (∀ cat req, req.items = some [] → createOrder cat req = .error .missingFields) ∧
    (∀ cat db now req l x e2, req.items = some l → x ∈ l → checkItem cat x = .error e2 →
        ∃ e, createOrder cat req = .error e ∧
          handleCreateOrder cat db now req = (db, .error e)) := by
  have h1 : ∀ cat db now req e, createOrder cat req = .error e →
      handleCreateOrder cat db now req = (db, .error e) := by
    intro cat db now req e h
    simp [handleCreateOrder, h]
  refine ⟨h1, ?_, ?_⟩
  · intro cat req hl
    exact (createOrder_missingFields_iff cat req).mpr (Or.inr (Or.inr (Or.inr hl)))
  · intro cat db now req l x e2 hl hx hchk
    cases hco : createOrder cat req with
    | error e => exact ⟨e, rfl, h1 cat db now req e hco⟩
    | ok b =>
      obtain ⟨c, a, l2, -, -, hl2, -, -, -, hvi, -, -⟩ := createOrder_ok_spec cat req b hco
      rw [hl] at hl2
      rw [← Option.some.inj hl2] at hvi
      obtain ⟨p, hp⟩ := validateItems_ok_all cat l _ hvi x hx
      rw [hp] at hchk
      exact absurd hchk (by simp)

/-- Witness for C3: the empty-item-list request fails with missing
fields. -/
theorem C3_witness : createOrder exCat exReqEmpty = .error .missingFields :=
  C3_all_or_nothing.2.1 exCat exReqEmpty rfl

/-- C4 counterexample: the single item of this request has quantity 3/2 —
not an integer (it lies strictly between 1 and 2) yet at least 1 — and the
claim then demands an invalid-quantity failure, but creation succeeds. -/
theorem C4_counterexample :
    createOrder exCat (exReq (3 / 2)) = .ok exBuiltHalf ∧
    (exItem (3 / 2)).quantity = some (3 / 2) ∧
    (1 : Rat) < 3 / 2 ∧ (3 : Rat) / 2 < 2 :=
  ⟨createOrder_exHalf, rfl, by norm_num, by norm_num⟩

/-- C4 (amended): validation is fail-fast in the fixed order missing
fields, customer fields, address fields, then per item in input order: id
syntax (reporting the offending id), resolution, availability, quantity;
the quantity check does not test integrality — it rejects exactly a
missing quantity or a quantity below 1, and accepts any quantity ≥ 1. -/
theorem C4_validation_order :
    (∀ cat req, createOrder cat req = .error .missingFields ↔
        req.customer = none ∨ req.deliveryAddress = none ∨ req.items = none ∨
          req.items = some []) ∧
    (∀ cat req, createOrder cat req = .error .missingCustomerFields ↔
        ∃ c a l, req.customer = some c ∧ req.deliveryAddress = some a ∧
          req.items = some l ∧ l ≠ [] ∧ (c.name = "" ∨ c.email = "" ∨ c.phone = "")) ∧
    (∀ cat req, createOrder cat req = .error .missingAddressFields ↔
        ∃ c a l, req.customer = some c ∧ req.deliveryAddress = some a ∧
          req.items = some l ∧ l ≠ [] ∧ ¬ (c.name = "" ∨ c.email = "" ∨ c.phone = "") ∧
          (a.street = "" ∨ a.area = "" ∨ a.pincode = "")) ∧
    (∀ cat req c a l e, req.customer = some c → req.deliveryAddress = some a →
        req.items = some l → l ≠ [] → ¬ (c.name = "" ∨ c.email = "" ∨ c.phone = "") →
        ¬ (a.street = "" ∨ a.area = "" ∨ a.pincode = "") →
        (createOrder cat req = .error e ↔
          ∃ pre x post, l = pre ++ x :: post ∧
            (∀ y ∈ pre, ∃ p, checkItem cat y = .ok p) ∧ checkItem cat x = .error e)) ∧
    (∀ cat x o, checkItem cat x = .error (.invalidItemId o) → o = x.menuItemId) ∧
    (∀ cat x i m, x.menuItemId = some i → i ≠ "" → isValidObjectId i = true →
        findById cat i = some m → m.isAvailable = true →
        (checkItem cat x = .error (.invalidQuantity m.name) ↔
          x.quantity = none ∨ ∃ q, x.quantity = some q ∧ q < 1)) := by
  refine ⟨createOrder_missingFields_iff, createOrder_missingCustomer_iff,
    createOrder_missingAddress_iff, ?_, checkItem_invalidItemId_payload,
    checkItem_invalidQuantity_iff⟩
  intro cat req c a l e hc ha hl hnil hcf haf
  rw [createOrder_itemError_iff cat req c a l hc ha hl hnil hcf haf e]
  exact validateItems_error_iff cat l e

/-- Witness for C4 at a quantity-0 item of the fixture catalog entry. -/
theorem C4_witness :
    checkItem exCat ⟨some exId, some 0, none, none⟩ =
      .error (.invalidQuantity "CAPPUCCINO") :=
  (C4_validation_order.2.2.2.2.2 exCat ⟨some exId, some 0, none, none⟩ exId
      ⟨exId, "CAPPUCCINO", 80, "img", true⟩ rfl (by decide) exId_valid findById_ex
      rfl).mpr
    (Or.inr ⟨0, rfl, by norm_num⟩)

/-- C5: an order number is literally CA, then the last six digits of the
millisecond clock, then the collection count plus one zero-padded to three
digits; two sequential successful creations — the second one seeing the
collection with the first order appended — always receive distinct order
numbers, for any clock readings of at least six decimal digits. -/
theorem C5_order_number_distinct :
    (∀ now count, genOrderNumber now count =
        ⟨['C', 'A'] ++ lastN 6 (decRepr now) ++ padTo 3 (decRepr (count + 1))⟩) ∧
    (∀ cat cat2 db now1 now2 req1 req2 db1 db2 r1 r2,
        handleCreateOrder cat db now1 req1 = (db1, .ok r1) →
        handleCreateOrder cat2 db1 now2 req2 = (db2, .ok r2) →
        6 ≤ (decRepr now1).length → 6 ≤ (decRepr now2).length →
        r1.orderNumber ≠ r2.orderNumber) := by
  refine ⟨fun now count => rfl, ?_⟩
  intro cat cat2 db now1 now2 req1 req2 db1 db2 r1 r2 h1 h2 hl1 hl2
  cases hco1 : createOrder cat req1 with
  | error e => simp [handleCreateOrder, hco1] at h1
  | ok b1 =>
    simp only [handleCreateOrder, hco1, Prod.mk.injEq] at h1
    obtain ⟨hdb1, hr1⟩ := h1
    cases hco2 : createOrder cat2 req2 with
    | error e => simp [handleCreateOrder, hco2] at h2
    | ok b2 =>
      simp only [handleCreateOrder, hco2, Prod.mk.injEq] at h2
      obtain ⟨hdb2, hr2⟩ := h2
      have e1 := Except.ok.inj hr1
      have e2 := Except.ok.inj hr2
      rw [← e1, ← e2]
      have hlen : db1.length = db.length + 1 := by
        rw [← hdb1]
        simp
      exact genOrderNumber_ne_of_count_ne now1 now2 db.length db1.length hl1 hl2
        (by omega)

/-- Witness for C5: creating twice in a row from the fixture state yields
the distinct order numbers CA000000001 and CA000007002. -/
theorem C5_witness : exO1.orderNumber ≠ exO2.orderNumber :=
  C5_order_number_distinct.2 exCat exCat [] exNow exNow2 (exReq 2) (exReq 2)
    [exO1] [exO1, exO2]
    ⟨exO1.orderNumber, exO1.total, exO1.estimatedDeliveryTime, exO1.status⟩
    ⟨exO2.orderNumber, exO2.total, exO2.estimatedDeliveryTime, exO2.status⟩
    (by simp only [handleCreateOrder, createOrder_ex2]; rfl)
    (by simp only [handleCreateOrder, createOrder_ex2]; rfl)
    (by decide) (by decide)

/-- C6: a successful transition to "delivered" stamps actualDeliveryTime
with the current time, which is at least createdAt whenever the clock has
not gone backwards since creation; a successful transition to any other
status leaves actualDeliveryTime exactly as it was on the stored order. -/
theorem C6_delivered_time :
    (∀ db n now db2 o2, handleUpdateStatus db n "delivered" now = (db2, .ok o2) →
        o2.actualDeliveryTime = some now ∧
        (o2.createdAt ≤ now → ∃ t, o2.actualDeliveryTime = some t ∧ o2.createdAt ≤ t)) ∧
    (∀ db n s now db2 o2, s ≠ "delivered" →
        handleUpdateStatus db n s now = (db2, .ok o2) →
        ∃ o, o ∈ db ∧ o.orderNumber = n ∧
          o2.actualDeliveryTime = o.actualDeliveryTime ∧ o2.createdAt = o.createdAt) := by
  constructor
  · intro db n now db2 o2 h
    rw [handleUpdateStatus, if_pos (by decide)] at h
    cases hu : updateFirst n (fun o => applyStatus o "delivered" now) db with
    | none => rw [hu] at h; exact absurd h (by simp)
    | some p =>
      rw [hu] at h
      simp only [Prod.mk.injEq] at h
      obtain ⟨-, ho2⟩ := h
      have ho2e := Except.ok.inj ho2
      obtain ⟨pre, o, post, -, -, -, -, hp2⟩ := updateFirst_some_spec n _ db p hu
      rw [← ho2e, hp2]
      refine ⟨rfl, fun hle => ⟨now, rfl, hle⟩⟩
  · intro db n s now db2 o2 hs h
    rw [handleUpdateStatus] at h
    by_cases hvs : validStatuses.contains s = true
    · rw [if_pos hvs] at h
      cases hu : updateFirst n (fun o => applyStatus o s now) db with
      | none => rw [hu] at h; exact absurd h (by simp)
      | some p =>
        rw [hu] at h
        simp only [Prod.mk.injEq] at h
        obtain ⟨-, ho2⟩ := h
        have ho2e := Except.ok.inj ho2
        obtain ⟨pre, o, post, hdb, hon, -, -, hp2⟩ := updateFirst_some_spec n _ db p hu
        refine ⟨o, by simp [hdb], hon, ?_, ?_⟩
        · rw [← ho2e, hp2]
          simp [applyStatus, hs]
        · rw [← ho2e, hp2]
          simp [applyStatus]
    · rw [if_neg hvs] at h
      exact absurd h (by simp)

/-- Witness for C6: delivering the fixture order stamps the delivery
time. -/
theorem C6_witness :
    exO1d.actualDeliveryTime = some 1800000000000 ∧
    (exO1d.createdAt ≤ 1800000000000 →
      ∃ t, exO1d.actualDeliveryTime = some t ∧ exO1d.createdAt ≤ t) :=
  C6_delivered_time.1 [exO1] exO1.orderNumber 1800000000000 [exO1d] exO1d rfl

/-- C7: a status outside the fixed enumeration — "shipped" for instance —
is rejected with the invalid-status error and no state change; a valid
status with an unknown order number gives not-found and no state change; a
valid status on an existing order number succeeds. -/
theorem C7_status_transitions :
    (∀ db n s now, validStatuses.contains s = false →
        handleUpdateStatus db n s now = (db, .error .invalidStatus)) ∧
    validStatuses.contains "shipped" = false ∧
    (∀ db n s now, validStatuses.contains s = true → (∀ o ∈ db, o.orderNumber ≠ n) →
        handleUpdateStatus db n s now = (db, .error .notFound)) ∧
    (∀ db n s now o, validStatuses.contains s = true → o ∈ db → o.orderNumber = n →
        ∃ db2 o2, handleUpdateStatus db n s now = (db2, .ok o2)) := by
  refine ⟨?_, by decide, ?_, ?_⟩
  · intro db n s now hs
    rw [handleUpdateStatus, if_neg (by rw [hs]; simp)]
  · intro db n s now hvs hno
    rw [handleUpdateStatus, if_pos hvs, updateFirst_eq_none n _ db hno]
  · intro db n s now o hvs ho hon
    rw [handleUpdateStatus, if_pos hvs]
    cases hu : updateFirst n (fun o => applyStatus o s now) db with
    | none => exact absurd hon (updateFirst_none_all n _ db hu o ho)
    | some p => exact ⟨p.1, p.2, rfl⟩

/-- Witness for C7: "shipped" is rejected on the fixture collection with
no state change. -/
theorem C7_witness :
    handleUpdateStatus [exO1] "CA000000001" "shipped" 5 =
      ([exO1], .error .invalidStatus) :=
  C7_status_transitions.1 [exO1] "CA000000001" "shipped" 5 (by decide)

/-- C8: lookup of an order number matching no stored order is not-found;
lookup of an existing order projects the first matching document, and each
item field of the projection falls back through the stored snapshot first,
then the populated catalog value, then the default ("Unnamed Item", 0, or
the empty string) — in that order, a falsy (empty or zero) earlier value
deferring to the next tier. -/
theorem C8_lookup_fallback :
    (∀ db cat n, (∀ o ∈ db, o.orderNumber ≠ n) → lookupOrder db cat n = none) ∧
    (∀ db cat n o, db.find? (fun o => o.orderNumber == n) = some o →
        o ∈ db ∧ o.orderNumber = n ∧
        lookupOrder db cat n = some (projectOrder cat o)) ∧
    (∀ cat it, it.name ≠ "" → (projectItem cat it).name = it.name) ∧
    (∀ cat it m, it.name = "" → findById cat it.menuItem = some m → m.name ≠ "" →
        (projectItem cat it).name = m.name) ∧
    (∀ cat it, it.name = "" → findById cat it.menuItem = none →
        (projectItem cat it).name = "Unnamed Item") ∧
    (∀ cat it m, it.name = "" → findById cat it.menuItem = some m → m.name = "" →
        (projectItem cat it).name = "Unnamed Item") ∧
    (∀ cat it, it.price ≠ 0 → (projectItem cat it).price = it.price) ∧
    (∀ cat it m, it.price = 0 → findById cat it.menuItem = some m → m.price ≠ 0 →
        (projectItem cat it).price = m.price) ∧
    (∀ cat it, it.price = 0 → findById cat it.menuItem = none →
        (projectItem cat it).price = 0) ∧
    (∀ cat it m, it.price = 0 → findById cat it.menuItem = some m → m.price = 0 →
        (projectItem cat it).price = 0) ∧
    (∀ cat it, it.image ≠ "" → (projectItem cat it).image = it.image) ∧
    (∀ cat it m, it.image = "" → findById cat it.menuItem = some m → m.image ≠ "" →
        (projectItem cat it).image = m.image) ∧
    (∀ cat it, it.image = "" → findById cat it.menuItem = none →
        (projectItem cat it).image = "") ∧
    (∀ cat it m, it.image = "" → findById cat it.menuItem = some m → m.image = "" →
        (projectItem cat it).image = "") := by
  refine ⟨?_, ?_, ?_, ?_, ?_, ?_, ?_, ?_, ?_, ?_, ?_, ?_, ?_, ?_⟩
  · intro db cat n h
    rw [lookupOrder, List.find?_eq_none.mpr fun o ho => by simp [h o ho]]
    rfl
  · intro db cat n o h
    refine ⟨List.mem_of_find?_eq_some h, by simpa using List.find?_some h, ?_⟩
    rw [lookupOrder, h]
    rfl
  · intro cat it h; simp [projectItem, jsOrStr, h]
  · intro cat it m h hf hm; simp [projectItem, jsOrStr, h, hf, hm]
  · intro cat it h hf; simp [projectItem, jsOrStr, h, hf]
  · intro cat it m h hf hm; simp [projectItem, jsOrStr, h, hf, hm]
  · intro cat it h; simp [projectItem, jsOrRat, h]
  · intro cat it m h hf hm; simp [projectItem, jsOrRat, h, hf, hm]
  · intro cat it h hf; simp [projectItem, jsOrRat, h, hf]
  · intro cat it m h hf hm; simp [projectItem, jsOrRat, h, hf, hm]
  · intro cat it h; simp [projectItem, jsOrStr, h]
  · intro cat it m h hf hm; simp [projectItem, jsOrStr, h, hf, hm]
  · intro cat it h hf; simp [projectItem, jsOrStr, h, hf]
  · intro cat it m h hf hm; simp [projectItem, jsOrStr, h, hf, hm]

/-- Witness for C8: looking up the stored fixture order finds and projects
it. -/
theorem C8_witness :
    exO1 ∈ [exO1] ∧ exO1.orderNumber = "CA000000001" ∧
    lookupOrder [exO1] exCat "CA000000001" = some (projectOrder exCat exO1) :=
  C8_lookup_fallback.2.1 [exO1] exCat "CA000000001" exO1 rfl

/-- Positions of a list rewritten at its first match: every position holds
either the old element or the rewritten one. -/
theorem frame_pointwise (f : Order → Order) :
    ∀ (pre post : List Order) (o : Order) (i : Nat)
      (hi : i < (pre ++ o :: post).length) (hi2 : i < (pre ++ f o :: post).length),
      (pre ++ f o :: post).get ⟨i, hi2⟩ = (pre ++ o :: post).get ⟨i, hi⟩ ∨
      (pre ++ f o :: post).get ⟨i, hi2⟩ = f ((pre ++ o :: post).get ⟨i, hi⟩) := by
  intro pre
  induction pre with
  | nil =>
    intro post o i hi hi2
    match i with
    | 0 => right; rfl
    | i + 1 => left; rfl
  | cons p pre ih =>
    intro post o i hi hi2
    match i with
    | 0 => left; rfl
    | i + 1 => exact ih post o i (by simpa using hi) (by simpa using hi2)

/-- State reached by the status route: unchanged, or one first-match
rewrite. -/
theorem handleUpdateStatus_state (db : List Order) (n s : String) (now : Nat)
    (db2 : List Order) (r : Except StatusErr Order)
    (h : handleUpdateStatus db n s now = (db2, r)) :
    db2 = db ∨ ∃ pre o post, db = pre ++ o :: post ∧
      db2 = pre ++ applyStatus o s now :: post := by
  rw [handleUpdateStatus] at h
  by_cases hvs : validStatuses.contains s = true
  · rw [if_pos hvs] at h
    cases hu : updateFirst n (fun o => applyStatus o s now) db with
    | none =>
      rw [hu] at h
      exact Or.inl (congrArg Prod.fst h).symm
    | some p =>
      obtain ⟨pl, pr⟩ := p
      rw [hu] at h
      obtain ⟨pre, o, post, hdb, -, -, hp1, -⟩ :=
        updateFirst_some_spec n _ db (pl, pr) hu
      refine Or.inr ⟨pre, o, post, hdb, ?_⟩
      have hfst : pl = db2 := congrArg Prod.fst h
      rw [← hfst]
      exact hp1
  · rw [if_neg hvs] at h
    exact Or.inl (congrArg Prod.fst h).symm

/-- C9 (amended): creation only ever appends a new order; the status route
preserves the collection's length, and at every position it leaves the
order unchanged or replaces it by its applyStatus image, so orderNumber,
subtotal, deliveryFee, total, items, customer, address, paymentMethod,
specialInstructions, estimatedDeliveryTime, createdAt and also updatedAt
(findOneAndUpdate fires no save hook) are all unchanged, and
actualDeliveryTime is unchanged unless the new status is "delivered"; no
operation deletes an order. -/
theorem C9_frame :
    (∀ cat db now req, (handleCreateOrder cat db now req).1 = db ∨
        ∃ o, (handleCreateOrder cat db now req).1 = db ++ [o]) ∧
    (∀ db n s now db2 r, handleUpdateStatus db n s now = (db2, r) →
        db2.length = db.length) ∧
    (∀ db n s now db2 r i (hi : i < db.length) (hi2 : i < db2.length),
        handleUpdateStatus db n s now = (db2, r) →
        (db2.get ⟨i, hi2⟩ = db.get ⟨i, hi⟩ ∨
          db2.get ⟨i, hi2⟩ = applyStatus (db.get ⟨i, hi⟩) s now) ∧
        (db2.get ⟨i, hi2⟩).orderNumber = (db.get ⟨i, hi⟩).orderNumber ∧
        (db2.get ⟨i, hi2⟩).subtotal = (db.get ⟨i, hi⟩).subtotal ∧
        (db2.get ⟨i, hi2⟩).deliveryFee = (db.get ⟨i, hi⟩).deliveryFee ∧
        (db2.get ⟨i, hi2⟩).total = (db.get ⟨i, hi⟩).total ∧
        (db2.get ⟨i, hi2⟩).items = (db.get ⟨i, hi⟩).items ∧
        (db2.get ⟨i, hi2⟩).customer = (db.get ⟨i, hi⟩).customer ∧
        (db2.get ⟨i, hi2⟩).deliveryAddress = (db.get ⟨i, hi⟩).deliveryAddress ∧
        (db2.get ⟨i, hi2⟩).paymentMethod = (db.get ⟨i, hi⟩).paymentMethod ∧
        (db2.get ⟨i, hi2⟩).specialInstructions = (db.get ⟨i, hi⟩).specialInstructions ∧
        (db2.get ⟨i, hi2⟩).estimatedDeliveryTime = (db.get ⟨i, hi⟩).estimatedDeliveryTime ∧
        (db2.get ⟨i, hi2⟩).createdAt = (db.get ⟨i, hi⟩).createdAt ∧
        (db2.get ⟨i, hi2⟩).updatedAt = (db.get ⟨i, hi⟩).updatedAt ∧
        (s ≠ "delivered" →
          (db2.get ⟨i, hi2⟩).actualDeliveryTime = (db.get ⟨i, hi⟩).actualDeliveryTime)) := by
  refine ⟨?_, ?_, ?_⟩
  · intro cat db now req
    cases hco : createOrder cat req with
    | error e => left; simp [handleCreateOrder, hco]
    | ok b => right; exact ⟨saveOrder db now b, by simp [handleCreateOrder, hco]⟩
  · intro db n s now db2 r h
    rcases handleUpdateStatus_state db n s now db2 r h with hid | ⟨pre, o, post, hdb, hdb2⟩
    · rw [hid]
    · rw [hdb, hdb2]; simp
  · intro db n s now db2 r i hi hi2 h
    have hdisj : db2.get ⟨i, hi2⟩ = db.get ⟨i, hi⟩ ∨
        db2.get ⟨i, hi2⟩ = applyStatus (db.get ⟨i, hi⟩) s now := by
      rcases handleUpdateStatus_state db n s now db2 r h with hid | ⟨pre, o, post, hdb, hdb2⟩
      · left
        subst hid
        rfl
      · subst hdb
        subst hdb2
        exact frame_pointwise (fun o => applyStatus o s now) pre post o i hi hi2
    refine ⟨hdisj, ?_⟩
    rcases hdisj with he | he <;> rw [he]
    · exact ⟨rfl, rfl, rfl, rfl, rfl, rfl, rfl, rfl, rfl, rfl, rfl, rfl, fun _ => rfl⟩
    · exact ⟨rfl, rfl, rfl, rfl, rfl, rfl, rfl, rfl, rfl, rfl, rfl, rfl,
        fun hs => by simp [applyStatus, hs]⟩

/-- C9 counterexample: a status update performed at clock value
1800000000000 returns the order with updatedAt still at its creation value
1700000000000 — the route does not refresh updatedAt. -/
theorem C9_counterexample :
    handleUpdateStatus [exO1] exO1.orderNumber "confirmed" 1800000000000 =
      ([exO1c], .ok exO1c) ∧
    exO1c.updatedAt = exO1.updatedAt ∧ exO1.updatedAt = 1700000000000 ∧
    (1700000000000 : Nat) ≠ 1800000000000 :=
  ⟨rfl, rfl, rfl, by decide⟩

/-- Witness for C9: the fixture status update keeps the collection's
length. -/
theorem C9_witness : ([exO1c] : List Order).length = ([exO1] : List Order).length :=
  C9_frame.2.1 [exO1] exO1.orderNumber "confirmed" 1800000000000 [exO1c]
    (.ok exO1c) rfl

/-- C10: the customer view of an existing order is exactly the record
{status, estimatedDeliveryTime, deliveryAddress, paymentMethod, projected
items, subtotal, deliveryFee, totalAmount} with the order's total exposed
under the key totalAmount, and it does not depend on the stored customer
sub-document (name, email, phone) at all. -/
theorem C10_projection :
    (∀ db cat n o, db.find? (fun o => o.orderNumber == n) = some o →
        lookupOrder db cat n = some
          { status := o.status
            estimatedDeliveryTime := o.estimatedDeliveryTime
            deliveryAddress := o.deliveryAddress
            paymentMethod := o.paymentMethod
            items := o.items.map (projectItem cat)
            subtotal := o.subtotal
            deliveryFee := o.deliveryFee
            totalAmount := o.total }) ∧
    (∀ db cat n (cs : Order → Customer),
        lookupOrder (db.map fun o => { o with customer := cs o }) cat n =
          lookupOrder db cat n) := by
  constructor
  · intro db cat n o h
    rw [lookupOrder, h]
    rfl
  · intro db cat n cs
    rw [lookupOrder, lookupOrder, List.find?_map, Option.map_map]
    rfl

/-- Witness for C10: the projection of the stored fixture order. -/
theorem C10_witness :
    lookupOrder [exO1] exCat "CA000000001" = some
      { status := exO1.status
        estimatedDeliveryTime := exO1.estimatedDeliveryTime
        deliveryAddress := exO1.deliveryAddress
        paymentMethod := exO1.paymentMethod
        items := exO1.items.map (projectItem exCat)
        subtotal := exO1.subtotal
        deliveryFee := exO1.deliveryFee
        totalAmount := exO1.total } :=
  C10_projection.1 [exO1] exCat "CA000000001" exO1 rfl

end Cafe
